import Mathlib

/-!
Shallow embedding of src/wesgr.c (the wesgr timeline-graph tool driver).

The file embeds, from the C source:
  - the CLI front end: a model of GNU getopt_long instantiated with the
    exact option table of parse_opts (short options "hi:a:b:o:", long
    options help/input/from-ms/to-ms/output), C atoi, and parse_opts;
  - the decode driver parse_file: the bytebuf chunk reader (fread with
    8192-byte chunks and the feof flag), the loop that feeds slices to
    the JSON tokenizer, advances bb.pos by jtok->char_offset, and the
    graph_data_end call on the successful exit;
  - main: the sequencing of parse_opts, graph_data_init,
    parse_context_init, parse_file, graph_data_to_svg and the release
    calls, together with the exit status.

External collaborators that are not part of this repository (the json-c
tokenizer, parse_context_process_object, graph_data_init/_end/_to_svg,
parse_context_init/_release) are modelled as parameters: an abstract
resumable decoder and abstract return values, following the contracts
the spec gives them.  A small concrete decoder over brace-delimited
values instantiates the parameters for concrete runs.

Unmodelled C failure modes: malloc/realloc failure and ferror on the
input stream cannot occur in the model (allocation always succeeds and
the modelled file never faults); those paths in the C code return ERROR
like every other failure.
-/

/-- Modelled from the spec: the ERROR macro comes from wesgr.h, which is
not under src/.  Every use site in wesgr.c checks failure with `< 0` or
returns ERROR where -1 is expected, and the spec's propagation policy is
that every error aborts the pipeline, so ERROR is the negative failure
value -1. -/
def ERROR : Int := -1

/-- C locale isspace, the whitespace set skipped by atoi. -/
def isSpaceC (c : Char) : Bool :=
  c = ' ' || c = '\t' || c = '\n' || c = '\x0b' || c = '\x0c' || c = '\r'

/-- Accumulate the maximal leading run of decimal digits, as atoi does. -/
def digitsVal : List Char → Int → Int
  | [], acc => acc
  | c :: cs, acc =>
    if c.isDigit then digitsVal cs (acc * 10 + (c.toNat - 48 : Nat)) else acc

/-- C atoi: skip whitespace, optional sign, then the maximal digit
prefix; a string with no leading digits converts to 0.  (Overflow is
undefined behaviour in C and unbounded here.) -/
def atoi (s : String) : Int :=
  match s.toList.dropWhile (fun c => isSpaceC c) with
  | [] => 0
  | c :: rest =>
    if c = '-' then - digitsVal rest 0
    else if c = '+' then digitsVal rest 0
    else digitsVal (c :: rest) 0

/-- One entry of the struct option table in parse_opts. -/
structure LongOpt where
  name : String
  hasArg : Bool
  val : Char
deriving DecidableEq

/-- The long option table of parse_opts, in source order. -/
def wesgrLongOpts : List LongOpt :=
  [⟨"help", false, 'h'⟩, ⟨"input", true, 'i'⟩, ⟨"from-ms", true, 'a'⟩,
   ⟨"to-ms", true, 'b'⟩, ⟨"output", true, 'o'⟩]

/-- The short option string "hi:a:b:o:" of parse_opts: option character
paired with whether it takes a required argument. -/
def wesgrShortOpts : List (Char × Bool) :=
  [('h', false), ('i', true), ('a', true), ('b', true), ('o', true)]

/-- Split a long-option body at the first '=' into name and attached
argument, as getopt_long does for "--name=value". -/
def splitEqAux : List Char → List Char → List Char × Option (List Char)
  | [], acc => (acc.reverse, none)
  | c :: cs, acc =>
    if c = '=' then (acc.reverse, some cs) else splitEqAux cs (c :: acc)

/-- GNU getopt_long long-option lookup: an exact name match wins,
otherwise a unique prefix of a table entry matches, anything else is an
error. -/
def findLong (name : String) : Option LongOpt :=
  match wesgrLongOpts.find? (fun lo => lo.name = name) with
  | some lo => some lo
  | none =>
    match wesgrLongOpts.filter (fun lo => name.toList.isPrefixOf lo.name.toList) with
    | [lo] => some lo
    | _ => none

/-- Process one short-option cluster (the characters of an argv element
after its '-').  Returns the (option char, optarg) results in order —
'?' for an unknown character or a missing required argument — and
whether the next argv element was consumed as an option argument. -/
def shortCluster : List Char → List String → List (Char × Option String) × Bool
  | [], _ => ([], false)
  | c :: cs, argvRest =>
    match wesgrShortOpts.find? (fun p => p.1 = c) with
    | none =>
      let r := shortCluster cs argvRest
      (('?', none) :: r.1, r.2)
    | some p =>
      if p.2 then
        match cs with
        | _ :: _ => ([(c, some (String.mk cs))], false)
        | [] =>
          match argvRest with
          | a2 :: _ => ([(c, some a2)], true)
          | [] => ([('?', none)], false)
      else
        let r := shortCluster cs argvRest
        ((c, none) :: r.1, r.2)

/-- GNU getopt_long scan over the argv elements after the program name,
with the wesgr option tables.  Yields the sequence of results the
parse_opts loop receives, in order ('?' for any error), and whether any
operand (non-option argument) was left over, i.e. whether optind < argc
after the final -1 (GNU permutation moves the operands to the end, so
only their existence is observable to parse_opts).  The second argument
counts operands seen so far. -/
def goScan : List String → Nat → List (Char × Option String) × Bool
  | [], nOps => ([], 0 < nOps)
  | a :: rest, nOps =>
    if a = "--" then
      ([], 0 < nOps || !rest.isEmpty)
    else if 2 < a.length ∧ a.toList.take 2 = ['-', '-'] then
      let body := splitEqAux (a.toList.drop 2) []
      match findLong (String.mk body.1) with
      | none =>
        let r := goScan rest nOps
        (('?', none) :: r.1, r.2)
      | some lo =>
        if lo.hasArg then
          match body.2 with
          | some v =>
            let r := goScan rest nOps
            ((lo.val, some (String.mk v)) :: r.1, r.2)
          | none =>
            match rest with
            | a2 :: rest2 =>
              let r := goScan rest2 nOps
              ((lo.val, some a2) :: r.1, r.2)
            | [] => ([('?', none)], 0 < nOps)
        else
          match body.2 with
          | some _ =>
            let r := goScan rest nOps
            (('?', none) :: r.1, r.2)
          | none =>
            let r := goScan rest nOps
            ((lo.val, none) :: r.1, r.2)
    else if 2 ≤ a.length ∧ a.toList.head? = some '-' then
      match shortCluster (a.toList.drop 1) rest with
      | (items, true) =>
        match rest with
        | _ :: rest2 =>
          let r := goScan rest2 nOps
          (items ++ r.1, r.2)
        | [] => (items, 0 < nOps)
      | (items, false) =>
        let r := goScan rest nOps
        (items ++ r.1, r.2)
    else
      goScan rest (nOps + 1)

/-- getopt_long as parse_opts drives it: the whole result stream plus
the leftover-operand flag. -/
def getopt_long (argv : List String) : List (Char × Option String) × Bool :=
  goScan argv 0

/-- struct prog_args of wesgr.c. -/
structure ProgArgs where
  from_ms : Int
  to_ms : Int
  infile : Option String
  svgfile : Option String
deriving DecidableEq

/-- Result of parse_opts: ok is the 0 return with the filled argument
struct; usage is the -1 return, recording whether print_usage ran
(print_usage writes the usage text with printf, i.e. to stdout). -/
inductive OptsResult where
  | ok (args : ProgArgs)
  | usage (printedHelp : Bool)
deriving DecidableEq

/-- The while/switch loop of parse_opts over the getopt_long results:
'?' returns -1, 'h' prints usage and returns -1, 'i'/'a'/'b'/'o' store
the argument ('a' and 'b' through atoi) and continue; after the loop,
leftover operands are an error, otherwise return 0. -/
def parse_opts_loop (args : ProgArgs) :
    List (Char × Option String) → Bool → OptsResult
  | [], extra => if extra then .usage false else .ok args
  | (c, oarg) :: rest, extra =>
    if c = '?' then .usage false
    else if c = 'h' then .usage true
    else if c = 'i' then parse_opts_loop { args with infile := oarg } rest extra
    else if c = 'a' then
      parse_opts_loop { args with from_ms := atoi (oarg.getD "") } rest extra
    else if c = 'b' then
      parse_opts_loop { args with to_ms := atoi (oarg.getD "") } rest extra
    else if c = 'o' then parse_opts_loop { args with svgfile := oarg } rest extra
    else parse_opts_loop args rest extra

/-- parse_opts of wesgr.c: args is the caller-initialised struct, argv
the command-line arguments after the program name. -/
def parse_opts (args : ProgArgs) (argv : List String) : OptsResult :=
  let r := getopt_long argv
  parse_opts_loop args r.1 r.2

example : parse_opts ⟨-1, -1, none, none⟩ ["-i", "in", "-o", "out"]
    = .ok ⟨-1, -1, some "in", some "out"⟩ := by decide

example : parse_opts ⟨-1, -1, none, none⟩ ["-z"] = .usage false := by decide

example : parse_opts ⟨-1, -1, none, none⟩ ["-h"] = .usage true := by decide

example : parse_opts ⟨-1, -1, none, none⟩ ["--input", "x", "--output=y", "-a", "7"]
    = .ok ⟨7, -1, some "x", some "y"⟩ := by decide

example : parse_opts ⟨-1, -1, none, none⟩ ["-i", "in", "-o", "out", "extra"]
    = .usage false := by decide

example : atoi "abc" = 0 := by decide
example : atoi "-1" = -1 := by decide
example : atoi "  42x" = 42 := by decide

/-- Result of one json_tokener_parse_ex call as parse_file observes it:
a non-NULL object together with jtok->char_offset (the bytes of the fed
slice consumed for it), NULL with json_tokener_continue (more input
needed), or NULL with any other error code (malformed input; parse_file
only prints the code, so it is not carried here). -/
inductive FeedResult (α : Type) where
  | object (val : α) (charOffset : Nat)
  | cont
  | malformed
deriving DecidableEq

/-- Abstract resumable JSON decoder: the json-c tokenizer is an external
library, modelled by its initial state and a feed function that consumes
a byte slice and returns the updated state with a FeedResult, per the
spec's IncrementalDecoder contract (state persists across calls). -/
structure Decoder (σ α : Type) where
  init : σ
  feed : σ → List Nat → σ × FeedResult α

/-- The opened input stream: its full byte content, the read position,
and the feof indicator, which fread sets when a read hits end-of-file. -/
structure CFile where
  data : List Nat
  pos : Nat
  eofFlag : Bool
deriving DecidableEq

/-- fread(buf, 1, sz, fp) as bytebuf_read_from_file uses it: returns up
to sz bytes from the current position, advancing it; the feof indicator
becomes set exactly when fewer than sz bytes remain.  (ferror never
fires in the model.) -/
def fread (f : CFile) (sz : Nat) : CFile × List Nat :=
  let avail := f.data.length - f.pos
  let n := min sz avail
  (⟨f.data, f.pos + n, f.eofFlag || decide (avail < sz)⟩,
   (f.data.drop f.pos).take n)

/-- State of the while(1) loop in parse_file: the tokenizer state jtok,
the input stream fp, and the bytebuf bb (buf is bb.data[0..len), bufPos
is bb.pos), plus the parse context ctx. -/
structure LoopState (σ κ : Type) where
  tok : σ
  file : CFile
  buf : List Nat
  bufPos : Nat
  ctx : κ
deriving DecidableEq

/-- Outcome of the decode loop of parse_file: success is the break with
ret = 0 (EOF while the tokenizer wants more input); parseError is the
break on NULL with a non-continue error; interpError is the break when
parse_context_process_object returned negative. -/
inductive ParseOutcome where
  | success
  | parseError
  | interpError
deriving DecidableEq

/-- The while(1) loop of parse_file, fuel-indexed (none = fuel ran out;
the C loop runs until a break).  Each iteration feeds the unconsumed
slice bb.data+bb.pos (length bb.len-bb.pos) to the tokenizer.  On
continue: break successfully if feof(fp), else read a fresh 8192-byte
chunk into the buffer (bb.pos becomes 0) and loop.  On any other
error: break with a parse failure.  On an object: advance bb.pos by
jtok->char_offset, run parse_context_process_object (abstracted as
process, none meaning a negative return), and loop or break.  The
returned LoopState is the state at the break, for observation. -/
def parseLoop (D : Decoder σ α) (process : κ → α → Option κ) :
    Nat → LoopState σ κ → Option (ParseOutcome × LoopState σ κ)
  | 0, _ => none
  | fuel + 1, s =>
    match D.feed s.tok (s.buf.drop s.bufPos) with
    | (tok', FeedResult.cont) =>
      if s.file.eofFlag then
        some (ParseOutcome.success, { s with tok := tok' })
      else
        parseLoop D process fuel
          ⟨tok', (fread s.file 8192).1, (fread s.file 8192).2, 0, s.ctx⟩
    | (tok', FeedResult.malformed) =>
      some (ParseOutcome.parseError, { s with tok := tok' })
    | (tok', FeedResult.object v off) =>
      match process s.ctx v with
      | some ctx' =>
        parseLoop D process fuel ⟨tok', s.file, s.buf, s.bufPos + off, ctx'⟩
      | none =>
        some (ParseOutcome.interpError, ⟨tok', s.file, s.buf, s.bufPos + off, s.ctx⟩)

/-- Loop entry state of parse_file: fresh tokenizer, the opened file at
position 0 with feof clear, and the bytebuf empty after bytebuf_init
(first feed gets a zero-length slice). -/
def initState (D : Decoder σ α) (data : List Nat) (ctx0 : κ) : LoopState σ κ :=
  ⟨D.init, ⟨data, 0, false⟩, [], 0, ctx0⟩

/-- parse_file of wesgr.c.  content is the result of fopen: none means
fopen failed (goto out_release with ret still -1, hence return ERROR).
On a successful loop, ret = graph_data_end(ctx->gdata) — gde abstracts
that external call — then parse_file returns ERROR if ret is -1, else
ret.  The second component counts graph_data_end invocations.  The
Option is the loop fuel (none = ran out). -/
def parse_file (D : Decoder σ α) (process : κ → α → Option κ) (gde : κ → Int)
    (fuel : Nat) (content : Option (List Nat)) (ctx0 : κ) : Option (Int × Nat) :=
  match content with
  | none => some (ERROR, 0)
  | some data =>
    match parseLoop D process fuel (initState D data ctx0) with
    | none => none
    | some (ParseOutcome.success, s) =>
      let r := gde s.ctx
      some (if r = -1 then ERROR else r, 1)
    | some (ParseOutcome.parseError, _) => some (ERROR, 0)
    | some (ParseOutcome.interpError, _) => some (ERROR, 0)

/-- Externally visible actions of main in program order: the fopen of
the input file inside parse_file, the graph_data_end call, the
graph_data_to_svg call with the window bounds and output path, and the
parse_context_release / graph_data_release calls. -/
inductive MainEvent where
  | fopenFile (name : String)
  | gdataEnd
  | svgRender (fromMs toMs : Int) (outfile : String)
  | ctxRelease
  | gdataRelease
deriving DecidableEq

/-- The external collaborators of main, abstracted: the decoder, the
object interpreter with its initial context, graph_data_end, the return
values of graph_data_init / parse_context_init / graph_data_to_svg, and
the filesystem (fopen by name; none = fopen fails). -/
structure Env (σ α κ : Type) where
  dec : Decoder σ α
  process : κ → α → Option κ
  ctx0 : κ
  gde : κ → Int
  gdataInitRet : Int
  ctxInitRet : Int
  svgRet : Int
  fs : String → Option (List Nat)

/-- main of wesgr.c: initialise prog_args to (-1, -1, NULL, NULL), run
parse_opts, require infile and svgfile, run graph_data_init and
parse_context_init, run parse_file, run graph_data_to_svg with
args.from_ms/args.to_ms, then parse_context_release and
graph_data_release, returning the process exit status (main's return
value) together with the trace of external actions. -/
def wesgr_main (E : Env σ α κ) (fuel : Nat) (argv : List String) :
    Option (Nat × List MainEvent) :=
  match parse_opts ⟨-1, -1, none, none⟩ argv with
  | OptsResult.usage _ => some (1, [])
  | OptsResult.ok args =>
    match args.infile with
    | none => some (1, [])
    | some infile =>
      match args.svgfile with
      | none => some (1, [])
      | some svgfile =>
        if E.gdataInitRet < 0 then some (1, []) else
        if E.ctxInitRet < 0 then some (1, []) else
        match parse_file E.dec E.process E.gde fuel (E.fs infile) E.ctx0 with
        | none => none
        | some (ret, gcalls) =>
          let evs := MainEvent.fopenFile infile ::
            (if gcalls = 1 then [MainEvent.gdataEnd] else [])
          if ret < 0 then some (1, evs)
          else
            let evs2 := evs ++ [MainEvent.svgRender args.from_ms args.to_ms svgfile]
            if E.svgRet < 0 then some (1, evs2)
            else some (0, evs2 ++ [MainEvent.ctxRelease, MainEvent.gdataRelease])

/-- State of the concrete brace decoder: the current nesting depth of
unmatched opening braces, and whether any byte of the current value has
been consumed (started = false means the decoder sits at a value
boundary with no pending bytes). -/
structure BDState where
  depth : Nat
  started : Bool
deriving DecidableEq

/-- Modelled from the spec: a concrete instance of the IncrementalDecoder
contract (spec 4.2) standing in for the external json-c tokenizer, which
is not part of this repository.  It decodes a stream of brace-delimited
values: whitespace between values is skipped, a value starts at 123
(the opening brace byte) and ends when its braces balance, any other
byte at a value boundary is malformed input, and a slice that ends
mid-value yields NeedMoreInput with the scan state retained across
calls.  The object value and charOffset are the number of slice bytes
consumed through the end of the value, matching jtok->char_offset. -/
def bfeedAux : BDState → List Nat → Nat → BDState × FeedResult Nat
  | st, [], _ => (st, FeedResult.cont)
  | st, b :: rest, n =>
    if st.started then
      if b = 123 then bfeedAux ⟨st.depth + 1, true⟩ rest (n + 1)
      else if b = 125 then
        if st.depth ≤ 1 then (⟨0, false⟩, FeedResult.object (n + 1) (n + 1))
        else bfeedAux ⟨st.depth - 1, true⟩ rest (n + 1)
      else bfeedAux st rest (n + 1)
    else
      if b = 123 then bfeedAux ⟨1, true⟩ rest (n + 1)
      else if b = 32 || b = 9 || b = 10 || b = 13 then bfeedAux st rest (n + 1)
      else (st, FeedResult.malformed)

/-- The brace decoder packaged as a Decoder. -/
def braceDecoder : Decoder BDState Nat :=
  ⟨⟨0, false⟩, fun st bs => bfeedAux st bs 0⟩

/-- parse_context_process_object stand-in that accepts every object,
counting the objects seen in the context. -/
def acceptAll : Nat → Nat → Option Nat := fun k _ => some (k + 1)

/-- parse_context_process_object stand-in that rejects every object
(returns a negative value in the C code, none here). -/
def rejectAll : Nat → Nat → Option Nat := fun _ _ => none

/-- graph_data_end stand-in returning success (0). -/
def gdeZero : Nat → Int := fun _ => 0

/-- A filesystem where exactly the file named "in" exists, holding the
given bytes. -/
def fsIn (bytes : List Nat) : String → Option (List Nat) :=
  fun n => if n = "in" then some bytes else none

/-- A fully healthy environment over the brace decoder whose input file
"in" holds the given bytes. -/
def envWith (bytes : List Nat) : Env BDState Nat Nat :=
  ⟨braceDecoder, acceptAll, 0, gdeZero, 0, 0, 0, fsIn bytes⟩

/-- Environment in which fopen fails for every path. -/
def envNoFile : Env BDState Nat Nat :=
  ⟨braceDecoder, acceptAll, 0, gdeZero, 0, 0, 0, fun _ => none⟩

/-- Environment whose interpreter rejects every decoded object. -/
def envReject (bytes : List Nat) : Env BDState Nat Nat :=
  ⟨braceDecoder, rejectAll, 0, gdeZero, 0, 0, 0, fsIn bytes⟩

example : parse_file braceDecoder acceptAll gdeZero 10 (some [123, 125]) 0
    = some (0, 1) := by decide

example : parse_file braceDecoder acceptAll gdeZero 10 (some [120]) 0
    = some (-1, 0) := by decide

example : parse_file braceDecoder acceptAll gdeZero 10 (some [123]) 0
    = some (0, 1) := by decide

example : parse_file braceDecoder rejectAll gdeZero 10 (some [123, 125]) 0
    = some (-1, 0) := by decide

example : wesgr_main (envWith [123, 125]) 10 ["-i", "in", "-o", "out"]
    = some (0, [MainEvent.fopenFile "in", MainEvent.gdataEnd,
                MainEvent.svgRender (-1) (-1) "out",
                MainEvent.ctxRelease, MainEvent.gdataRelease]) := by decide

example : wesgr_main envNoFile 10 ["-i", "in", "-o", "out"]
    = some (1, [MainEvent.fopenFile "in"]) := by decide

example : wesgr_main (envWith [120]) 10 ["-i", "in", "-o", "out"]
    = some (1, [MainEvent.fopenFile "in"]) := by decide

example : wesgr_main (envWith []) 10 ["-z"] = some (1, []) := by decide

/-- Claim C1 (counterexample): with the input file holding the single
byte 123 — an opening brace, i.e. the start of a value that never
completes — the decode loop ends in success with the decoder still
mid-value (depth 1, started), and parse_file returns 0 after calling
graph_data_end once: end-of-file with an incomplete value is accepted,
not rejected as a ParseError. -/
theorem c1_counterexample :
    parseLoop braceDecoder acceptAll 10 (initState braceDecoder [123] 0)
      = some (ParseOutcome.success, ⟨⟨1, true⟩, ⟨[123], 1, true⟩, [123], 0, 0⟩) ∧
    (⟨1, true⟩ : BDState).started = true ∧
    parse_file braceDecoder acceptAll gdeZero 10 (some [123]) 0 = some (0, 1) :=
  ⟨by decide, rfl, by decide⟩

/-- Claim C1 (amended): the decode loop of parse_file terminates
successfully only when the decoder reports NeedMoreInput while the
end-of-file indicator is set; the loop makes no check that the decoder
has zero pending bytes, so end-of-file inside an unfinished value also
terminates successfully (see the counterexample). -/
theorem c1_success_only_via_needmore_at_eof
    {σ α κ : Type} (D : Decoder σ α) (process : κ → α → Option κ) :
    ∀ (fuel : Nat) (st s' : LoopState σ κ),
      parseLoop D process fuel st = some (ParseOutcome.success, s') →
      s'.file.eofFlag = true ∧
      ∃ t : σ, D.feed t (s'.buf.drop s'.bufPos) = (s'.tok, FeedResult.cont) := by
  intro fuel
  induction fuel with
  | zero => intro st s' h; simp [parseLoop] at h
  | succ n ih =>
    intro st s' h
    rw [parseLoop] at h
    rcases hfeed : D.feed st.tok (st.buf.drop st.bufPos) with ⟨tok', r⟩
    rw [hfeed] at h
    cases r with
    | cont =>
      by_cases he : st.file.eofFlag
      · simp only [he, if_true, Option.some.injEq, Prod.mk.injEq] at h
        obtain ⟨-, rfl⟩ := h
        exact ⟨he, st.tok, hfeed⟩
      · simp only [he, if_false, Bool.false_eq_true] at h
        exact ih _ _ h
    | malformed => simp at h
    | object v off =>
      cases hp : process st.ctx v with
      | some ctx' =>
        simp only [hp] at h
        exact ih _ _ h
      | none => simp [hp] at h

/-- Claim C1 (witness for the amended theorem): the truncated run of the
counterexample satisfies the amended theorem's conclusion. -/
theorem c1_amended_witness :
    (⟨[123], 1, true⟩ : CFile).eofFlag = true ∧
    ∃ t : BDState, braceDecoder.feed t [123] = (⟨1, true⟩, FeedResult.cont) :=
  c1_success_only_via_needmore_at_eof braceDecoder acceptAll 10
    (initState braceDecoder [123] 0)
    ⟨⟨1, true⟩, ⟨[123], 1, true⟩, [123], 0, 0⟩ (by decide)

/-- Claim C2: one iteration of the decode loop.  When the tokenizer
yields an object, bb.pos advances by exactly jtok->char_offset and the
loop resumes on the very same buffer and file — no chunk is read — with
the remainder of the chunk as the next slice (or breaks with an
interpretation error, equally without reading).  A new 8192-byte chunk
is read exactly in the NeedMoreInput case with end-of-file not yet
reached; NeedMoreInput at end-of-file breaks successfully without
reading. -/
theorem c2_loop_step {σ α κ : Type} (D : Decoder σ α)
    (process : κ → α → Option κ) (fuel : Nat) (s : LoopState σ κ) :
    (∀ (tok' : σ) (v : α) (off : Nat),
      D.feed s.tok (s.buf.drop s.bufPos) = (tok', FeedResult.object v off) →
      parseLoop D process (fuel + 1) s =
        match process s.ctx v with
        | some ctx' =>
          parseLoop D process fuel ⟨tok', s.file, s.buf, s.bufPos + off, ctx'⟩
        | none =>
          some (ParseOutcome.interpError, ⟨tok', s.file, s.buf, s.bufPos + off, s.ctx⟩)) ∧
    (∀ tok' : σ,
      D.feed s.tok (s.buf.drop s.bufPos) = (tok', FeedResult.cont) →
      s.file.eofFlag = false →
      parseLoop D process (fuel + 1) s =
        parseLoop D process fuel
          ⟨tok', (fread s.file 8192).1, (fread s.file 8192).2, 0, s.ctx⟩) ∧
    (∀ tok' : σ,
      D.feed s.tok (s.buf.drop s.bufPos) = (tok', FeedResult.cont) →
      s.file.eofFlag = true →
      parseLoop D process (fuel + 1) s =
        some (ParseOutcome.success, { s with tok := tok' })) := by
  refine ⟨?_, ?_, ?_⟩
  · intro tok' v off hfeed
    rw [parseLoop, hfeed]
  · intro tok' hfeed heof
    rw [parseLoop, hfeed]
    simp [heof]
  · intro tok' hfeed heof
    rw [parseLoop, hfeed]
    simp [heof]

/-- Claim C2 (witness): after the first object of the chunk [123, 125]
is decoded at offset 0, the loop continues on the same chunk with the
offset advanced by the 2 consumed bytes and the context updated. -/
theorem c2_witness :
    parseLoop braceDecoder acceptAll 5 ⟨⟨0, false⟩, ⟨[123, 125], 2, true⟩, [123, 125], 0, 0⟩
      = parseLoop braceDecoder acceptAll 4 ⟨⟨0, false⟩, ⟨[123, 125], 2, true⟩, [123, 125], 2, 1⟩ := by
  have h := (c2_loop_step braceDecoder acceptAll 4
      ⟨⟨0, false⟩, ⟨[123, 125], 2, true⟩, [123, 125], 0, 0⟩).1 ⟨0, false⟩ 2 2 (by decide)
  simpa using h

/-- Claim C4: parse_file calls graph_data_end at most once, and exactly
once precisely when the decode loop finished successfully; a failed
fopen (content = none), a JSON parse failure, or an interpretation
failure never reaches it. -/
theorem c4_graph_data_end_exactly_on_success
    {σ α κ : Type} (D : Decoder σ α) (process : κ → α → Option κ) (gde : κ → Int)
    (fuel : Nat) (content : Option (List Nat)) (ctx0 : κ) (ret : Int) (gcalls : Nat)
    (h : parse_file D process gde fuel content ctx0 = some (ret, gcalls)) :
    gcalls ≤ 1 ∧
    (gcalls = 1 ↔ ∃ (data : List Nat) (s : LoopState σ κ),
        content = some data ∧
        parseLoop D process fuel (initState D data ctx0)
          = some (ParseOutcome.success, s)) := by
  unfold parse_file at h
  cases content with
  | none =>
    simp only [Option.some.injEq, Prod.mk.injEq] at h
    obtain ⟨-, rfl⟩ := h
    refine ⟨by omega, ?_, ?_⟩
    · intro h1; omega
    · rintro ⟨data, s, hc, -⟩; cases hc
  | some data =>
    cases hl : parseLoop D process fuel (initState D data ctx0) with
    | none => simp [hl] at h
    | some p =>
      rcases p with ⟨out, s⟩
      cases out with
      | success =>
        simp only [hl, Option.some.injEq, Prod.mk.injEq] at h
        obtain ⟨-, rfl⟩ := h
        exact ⟨le_refl 1, fun _ => ⟨data, s, rfl, hl⟩, fun _ => rfl⟩
      | parseError =>
        simp only [hl, Option.some.injEq, Prod.mk.injEq] at h
        obtain ⟨-, rfl⟩ := h
        refine ⟨by omega, ?_, ?_⟩
        · intro h1; omega
        · rintro ⟨data2, s2, hc, hl2⟩
          obtain rfl : data = data2 := by injection hc
          rw [hl] at hl2
          simp at hl2
      | interpError =>
        simp only [hl, Option.some.injEq, Prod.mk.injEq] at h
        obtain ⟨-, rfl⟩ := h
        refine ⟨by omega, ?_, ?_⟩
        · intro h1; omega
        · rintro ⟨data2, s2, hc, hl2⟩
          obtain rfl : data = data2 := by injection hc
          rw [hl] at hl2
          simp at hl2

/-- Claim C4 (witness): on the well-formed input [123, 125] the loop
succeeds and graph_data_end runs exactly once. -/
theorem c4_witness :
    (1 : Nat) ≤ 1 ∧
    ((1 : Nat) = 1 ↔ ∃ (data : List Nat) (s : LoopState BDState Nat),
        (some [123, 125] : Option (List Nat)) = some data ∧
        parseLoop braceDecoder acceptAll 10 (initState braceDecoder data 0)
          = some (ParseOutcome.success, s)) :=
  c4_graph_data_end_exactly_on_success braceDecoder acceptAll gdeZero 10
    (some [123, 125]) 0 0 1 (by decide)

/-- Inversion of wesgr_main: every result of main arises from exactly
one of its exit paths, with the corresponding exit status and event
trace. -/
theorem wesgr_main_inv {σ α κ : Type} (E : Env σ α κ) (fuel : Nat)
    (argv : List String) (code : Nat) (evs : List MainEvent)
    (h : wesgr_main E fuel argv = some (code, evs)) :
    ((∃ b, parse_opts ⟨-1, -1, none, none⟩ argv = OptsResult.usage b) ∧
      code = 1 ∧ evs = []) ∨
    (∃ args, parse_opts ⟨-1, -1, none, none⟩ argv = OptsResult.ok args ∧
      (((args.infile = none ∨ args.svgfile = none ∨
          E.gdataInitRet < 0 ∨ E.ctxInitRet < 0) ∧ code = 1 ∧ evs = []) ∨
       (∃ (infile svgfile : String) (ret : Int) (gcalls : Nat),
          args.infile = some infile ∧ args.svgfile = some svgfile ∧
          ¬ E.gdataInitRet < 0 ∧ ¬ E.ctxInitRet < 0 ∧
          parse_file E.dec E.process E.gde fuel (E.fs infile) E.ctx0
            = some (ret, gcalls) ∧
          ((ret < 0 ∧ code = 1 ∧
             evs = MainEvent.fopenFile infile ::
               (if gcalls = 1 then [MainEvent.gdataEnd] else [])) ∨
           (¬ ret < 0 ∧ E.svgRet < 0 ∧ code = 1 ∧
             evs = (MainEvent.fopenFile infile ::
               (if gcalls = 1 then [MainEvent.gdataEnd] else [])) ++
               [MainEvent.svgRender args.from_ms args.to_ms svgfile]) ∨
           (¬ ret < 0 ∧ ¬ E.svgRet < 0 ∧ code = 0 ∧
             evs = ((MainEvent.fopenFile infile ::
               (if gcalls = 1 then [MainEvent.gdataEnd] else [])) ++
               [MainEvent.svgRender args.from_ms args.to_ms svgfile]) ++
               [MainEvent.ctxRelease, MainEvent.gdataRelease]))))) := by
  unfold wesgr_main at h
  cases hopts : parse_opts ⟨-1, -1, none, none⟩ argv with
  | usage b =>
    simp only [hopts, Option.some.injEq, Prod.mk.injEq] at h
    exact Or.inl ⟨⟨b, rfl⟩, h.1.symm, h.2.symm⟩
  | ok args =>
    simp only [hopts] at h
    refine Or.inr ⟨args, rfl, ?_⟩
    cases hin : args.infile with
    | none =>
      simp only [hin, Option.some.injEq, Prod.mk.injEq] at h
      exact Or.inl ⟨Or.inl rfl, h.1.symm, h.2.symm⟩
    | some infile =>
      simp only [hin] at h
      cases hsvg : args.svgfile with
      | none =>
        simp only [hsvg, Option.some.injEq, Prod.mk.injEq] at h
        exact Or.inl ⟨Or.inr (Or.inl rfl), h.1.symm, h.2.symm⟩
      | some svgfile =>
        simp only [hsvg] at h
        by_cases hgi : E.gdataInitRet < 0
        · rw [if_pos hgi] at h
          simp only [Option.some.injEq, Prod.mk.injEq] at h
          exact Or.inl ⟨Or.inr (Or.inr (Or.inl hgi)), h.1.symm, h.2.symm⟩
        · rw [if_neg hgi] at h
          by_cases hci : E.ctxInitRet < 0
          · rw [if_pos hci] at h
            simp only [Option.some.injEq, Prod.mk.injEq] at h
            exact Or.inl ⟨Or.inr (Or.inr (Or.inr hci)), h.1.symm, h.2.symm⟩
          · rw [if_neg hci] at h
            cases hpf : parse_file E.dec E.process E.gde fuel (E.fs infile) E.ctx0 with
            | none => simp [hpf] at h
            | some pr =>
              rcases pr with ⟨ret, gcalls⟩
              simp only [hpf] at h
              refine Or.inr ⟨infile, svgfile, ret, gcalls, rfl, rfl, hgi, hci, hpf, ?_⟩
              by_cases hret : ret < 0
              · rw [if_pos hret] at h
                simp only [Option.some.injEq, Prod.mk.injEq] at h
                exact Or.inl ⟨hret, h.1.symm, h.2.symm⟩
              · rw [if_neg hret] at h
                by_cases hsv : E.svgRet < 0
                · rw [if_pos hsv] at h
                  simp only [Option.some.injEq, Prod.mk.injEq] at h
                  exact Or.inr (Or.inl ⟨hret, hsv, h.1.symm, h.2.symm⟩)
                · rw [if_neg hsv] at h
                  simp only [Option.some.injEq, Prod.mk.injEq] at h
                  exact Or.inr (Or.inr ⟨hret, hsv, h.1.symm, h.2.symm⟩)

/-- Claim C3: if the decode/interpret phase fails — the tokenizer
reported malformed input or parse_context_process_object rejected an
object — then main aborts before rendering: no graph_data_to_svg call
appears in the trace. -/
theorem c3_no_svg_after_decode_failure {σ α κ : Type} (E : Env σ α κ)
    (fuel : Nat) (argv : List String) (code : Nat) (evs : List MainEvent)
    (args : ProgArgs) (infile : String) (data : List Nat)
    (out : ParseOutcome) (s : LoopState σ κ)
    (hm : wesgr_main E fuel argv = some (code, evs))
    (hopts : parse_opts ⟨-1, -1, none, none⟩ argv = OptsResult.ok args)
    (hin : args.infile = some infile)
    (hfs : E.fs infile = some data)
    (hloop : parseLoop E.dec E.process fuel (initState E.dec data E.ctx0)
      = some (out, s))
    (hfail : out = ParseOutcome.parseError ∨ out = ParseOutcome.interpError) :
    ∀ (a b : Int) (o : String), MainEvent.svgRender a b o ∉ evs := by
  have hpf : parse_file E.dec E.process E.gde fuel (E.fs infile) E.ctx0
      = some (ERROR, 0) := by
    rw [hfs]
    unfold parse_file
    rcases hfail with rfl | rfl <;> simp [hloop]
  rcases wesgr_main_inv E fuel argv code evs hm with
    ⟨-, -, rfl⟩ | ⟨args2, hopts2, hrest⟩
  · simp
  · rw [hopts] at hopts2
    obtain rfl : args = args2 := by injection hopts2
    rcases hrest with ⟨-, -, rfl⟩ | ⟨infile2, svgfile, ret, gcalls, hin2, -, -, -, hpf2, hcase⟩
    · simp
    · rw [hin] at hin2
      obtain rfl : infile = infile2 := by injection hin2
      rw [hpf] at hpf2
      simp only [Option.some.injEq, Prod.mk.injEq] at hpf2
      obtain ⟨hret0, hgc0⟩ := hpf2
      rcases hcase with ⟨-, -, rfl⟩ | ⟨hnret, -, -, -⟩ | ⟨hnret, -, -, -⟩
      · intro a b o
        simp [← hgc0]
      · exact absurd (hret0 ▸ (show ERROR < 0 by decide)) hnret
      · exact absurd (hret0 ▸ (show ERROR < 0 by decide)) hnret

/-- Claim C3 (witness): a run on the malformed input byte 120 aborts
with exit 1 and a trace containing only the fopen; in particular the
render call is absent. -/
theorem c3_witness :
    MainEvent.svgRender (-1) (-1) "out" ∉ [MainEvent.fopenFile "in"] :=
  c3_no_svg_after_decode_failure (envWith [120]) 10 ["-i", "in", "-o", "out"] 1
    [MainEvent.fopenFile "in"] ⟨-1, -1, some "in", some "out"⟩ "in" [120]
    ParseOutcome.parseError ⟨⟨0, false⟩, ⟨[120], 1, true⟩, [120], 0, 0⟩
    (by decide) (by decide) rfl (by decide) (by decide) (Or.inl rfl)
    (-1) (-1) "out"

/-- Claim C5 (amended): graph_data_release appears in the trace exactly
when the whole pipeline succeeded (exit status 0); on every failure exit
path main returns without releasing the graph data. -/
theorem c5_release_only_on_full_success {σ α κ : Type} (E : Env σ α κ)
    (fuel : Nat) (argv : List String) (code : Nat) (evs : List MainEvent)
    (h : wesgr_main E fuel argv = some (code, evs)) :
    MainEvent.gdataRelease ∈ evs ↔ code = 0 := by
  rcases wesgr_main_inv E fuel argv code evs h with
    ⟨-, rfl, rfl⟩ | ⟨args, -, hrest⟩
  · simp
  · rcases hrest with ⟨-, rfl, rfl⟩ | ⟨infile, svgfile, ret, gcalls, -, -, -, -, -, hcase⟩
    · simp
    · rcases hcase with ⟨-, rfl, rfl⟩ | ⟨-, -, rfl, rfl⟩ | ⟨-, -, rfl, rfl⟩ <;>
        by_cases hg : gcalls = 1 <;> simp [hg]

/-- Claim C5 (counterexample): when fopen fails the process exits with
status 1 and the trace holds only the attempted fopen — in particular
graph_data_release is never called on this exit path, so the model is
not released on every exit. -/
theorem c5_counterexample :
    wesgr_main envNoFile 10 ["-i", "in", "-o", "out"]
      = some (1, [MainEvent.fopenFile "in"]) ∧
    MainEvent.gdataRelease ∉ [MainEvent.fopenFile "in"] :=
  ⟨by decide, by decide⟩

/-- Claim C5 (witness for the amended theorem): on a fully successful
run the release does appear, and the exit status is 0. -/
theorem c5_witness :
    MainEvent.gdataRelease ∈
      [MainEvent.fopenFile "in", MainEvent.gdataEnd,
       MainEvent.svgRender (-1) (-1) "out",
       MainEvent.ctxRelease, MainEvent.gdataRelease] ↔ (0 : Nat) = 0 :=
  c5_release_only_on_full_success (envWith [123, 125]) 10 ["-i", "in", "-o", "out"]
    0 _ (by decide)

/-- Claim C7: main's exit status is always 0 or 1, and any usage error
from parse_opts (unknown flag, missing option argument, -h, or leftover
operands all return -1 from parse_opts) exits with status 1 before any
file is opened (empty trace). -/
theorem c7_exit_status_zero_or_one {σ α κ : Type} (E : Env σ α κ)
    (fuel : Nat) (argv : List String) (code : Nat) (evs : List MainEvent)
    (h : wesgr_main E fuel argv = some (code, evs)) :
    (code = 0 ∨ code = 1) ∧
    (∀ b, parse_opts ⟨-1, -1, none, none⟩ argv = OptsResult.usage b →
      code = 1 ∧ evs = []) := by
  rcases wesgr_main_inv E fuel argv code evs h with
    ⟨-, rfl, rfl⟩ | ⟨args, hopts, hrest⟩
  · exact ⟨Or.inr rfl, fun b _ => ⟨rfl, rfl⟩⟩
  · constructor
    · rcases hrest with ⟨-, rfl, -⟩ | ⟨infile, svgfile, ret, gcalls, -, -, -, -, -, hcase⟩
      · exact Or.inr rfl
      · rcases hcase with ⟨-, rfl, -⟩ | ⟨-, -, rfl, -⟩ | ⟨-, -, rfl, -⟩
        · exact Or.inr rfl
        · exact Or.inr rfl
        · exact Or.inl rfl
    · intro b hb
      rw [hopts] at hb
      cases hb

/-- Claim C7 (witness): the unknown flag -z makes parse_opts fail, and
main exits with status 1 and an empty trace (no file opened). -/
theorem c7_witness :
    wesgr_main (envWith []) 10 ["-z"] = some (1, []) ∧
    ((1 : Nat) = 0 ∨ (1 : Nat) = 1) :=
  ⟨by decide,
   (c7_exit_status_zero_or_one (envWith []) 10 ["-z"] 1 [] (by decide)).1⟩

/-- The parse_opts loop never changes from_ms or to_ms unless it
processes an 'a' or 'b' result. -/
theorem parse_opts_loop_window_unchanged (items : List (Char × Option String)) :
    ∀ (args res : ProgArgs) (ex : Bool),
      (∀ p ∈ items, p.1 ≠ 'a' ∧ p.1 ≠ 'b') →
      parse_opts_loop args items ex = OptsResult.ok res →
      res.from_ms = args.from_ms ∧ res.to_ms = args.to_ms := by
  induction items with
  | nil =>
    intro args res ex _ h
    cases ex with
    | true => simp [parse_opts_loop] at h
    | false =>
      simp only [parse_opts_loop, Bool.false_eq_true, if_false,
        OptsResult.ok.injEq] at h
      rw [← h]
      exact ⟨rfl, rfl⟩
  | cons p rest ih =>
    rcases p with ⟨c, oarg⟩
    intro args res ex hno h
    have hc := hno (c, oarg) (List.mem_cons_self _ _)
    simp only [parse_opts_loop] at h
    by_cases h1 : c = '?'
    · rw [if_pos h1] at h; cases h
    · rw [if_neg h1] at h
      by_cases h2 : c = 'h'
      · rw [if_pos h2] at h; cases h
      · rw [if_neg h2] at h
        by_cases h3 : c = 'i'
        · rw [if_pos h3] at h
          exact ih { args with infile := oarg } res ex
            (fun q hq => hno q (List.mem_cons_of_mem _ hq)) h
        · rw [if_neg h3] at h
          by_cases h4 : c = 'a'
          · exact absurd h4 hc.1
          · rw [if_neg h4] at h
            by_cases h5 : c = 'b'
            · exact absurd h5 hc.2
            · rw [if_neg h5] at h
              by_cases h6 : c = 'o'
              · rw [if_pos h6] at h
                exact ih { args with svgfile := oarg } res ex
                  (fun q hq => hno q (List.mem_cons_of_mem _ hq)) h
              · rw [if_neg h6] at h
                exact ih args res ex
                  (fun q hq => hno q (List.mem_cons_of_mem _ hq)) h

/-- Claim C8: when the command line contains no -a (--from-ms) and no
-b (--to-ms) result, the window bounds main hands to graph_data_to_svg
are both the initialisation sentinel -1. -/
theorem c8_unset_window_passes_minus_one {σ α κ : Type} (E : Env σ α κ)
    (fuel : Nat) (argv : List String) (items : List (Char × Option String))
    (ex : Bool) (code : Nat) (evs : List MainEvent)
    (hg : getopt_long argv = (items, ex))
    (hnab : ∀ p ∈ items, p.1 ≠ 'a' ∧ p.1 ≠ 'b')
    (hm : wesgr_main E fuel argv = some (code, evs)) :
    ∀ (a b : Int) (o : String),
      MainEvent.svgRender a b o ∈ evs → a = -1 ∧ b = -1 := by
  rcases wesgr_main_inv E fuel argv code evs hm with
    ⟨-, -, rfl⟩ | ⟨args, hopts, hrest⟩
  · simp
  · have hloopeq : parse_opts_loop ⟨-1, -1, none, none⟩ items ex
        = OptsResult.ok args := by
      unfold parse_opts at hopts
      rw [hg] at hopts
      exact hopts
    have hw := parse_opts_loop_window_unchanged items ⟨-1, -1, none, none⟩
      args ex hnab hloopeq
    simp only at hw
    rcases hrest with ⟨-, -, rfl⟩ | ⟨infile, svgfile, ret, gcalls, -, -, -, -, -, hcase⟩
    · simp
    · intro a b o hmem
      rcases hcase with ⟨-, -, rfl⟩ | ⟨-, -, -, rfl⟩ | ⟨-, -, -, rfl⟩
      · exfalso
        by_cases hgc : gcalls = 1 <;> simp [hgc] at hmem
      · by_cases hgc : gcalls = 1 <;> simp [hgc] at hmem <;>
          exact ⟨hmem.1.symm ▸ hw.1, hmem.2.1.symm ▸ hw.2⟩
      · by_cases hgc : gcalls = 1 <;> simp [hgc] at hmem <;>
          exact ⟨hmem.1.symm ▸ hw.1, hmem.2.1.symm ▸ hw.2⟩

/-- Claim C8 (witness): with only -i and -o given, the successful run
renders with window bounds (-1, -1). -/
theorem c8_witness :
    wesgr_main (envWith [123, 125]) 10 ["-i", "in", "-o", "out"]
      = some (0, [MainEvent.fopenFile "in", MainEvent.gdataEnd,
                  MainEvent.svgRender (-1) (-1) "out",
                  MainEvent.ctxRelease, MainEvent.gdataRelease]) ∧
    ((-1 : Int) = -1 ∧ (-1 : Int) = -1) :=
  ⟨by decide,
   c8_unset_window_passes_minus_one (envWith [123, 125]) 10
     ["-i", "in", "-o", "out"] [('i', some "in"), ('o', some "out")] false 0
     [MainEvent.fopenFile "in", MainEvent.gdataEnd,
      MainEvent.svgRender (-1) (-1) "out",
      MainEvent.ctxRelease, MainEvent.gdataRelease]
     (by decide) (by decide) (by decide) (-1) (-1) "out" (by decide)⟩

/-- Claim C6 (counterexample): the invalid millisecond argument "xyz"
does not produce a usage error: parse_opts succeeds with from_ms = 0
(atoi of a non-numeric string), and the run proceeds through file I/O
and rendering to a successful exit. -/
theorem c6_counterexample :
    parse_opts ⟨-1, -1, none, none⟩ ["-i", "in", "-o", "out", "-a", "xyz"]
      = OptsResult.ok ⟨0, -1, some "in", some "out"⟩ ∧
    wesgr_main (envWith [123, 125]) 10 ["-i", "in", "-o", "out", "-a", "xyz"]
      = some (0, [MainEvent.fopenFile "in", MainEvent.gdataEnd,
                  MainEvent.svgRender 0 (-1) "out",
                  MainEvent.ctxRelease, MainEvent.gdataRelease]) :=
  ⟨by decide, by decide⟩

/-- Claim C6 (amended): any string V given to -a or -b is accepted
without complaint; the stored bound is atoi V (0 for a fully
non-numeric string), and parse_opts still returns success. -/
theorem c6_ms_option_accepts_any_string (X Y V : String) :
    parse_opts ⟨-1, -1, none, none⟩ ["-i", X, "-o", Y, "-a", V]
      = OptsResult.ok ⟨atoi V, -1, some X, some Y⟩ ∧
    parse_opts ⟨-1, -1, none, none⟩ ["-i", X, "-o", Y, "-b", V]
      = OptsResult.ok ⟨-1, atoi V, some X, some Y⟩ :=
  ⟨rfl, rfl⟩

/-- Claim C9: the 'h' result (the -h or --help flag) makes parse_opts
print the usage text (to stdout, via printf) and return -1, from any
state reached by earlier non-terminating results; and any -1 return of
parse_opts makes main exit with status 1 (never 0) before opening any
file. -/
theorem c9_help_usage_and_exit_one :
    (∀ (args : ProgArgs) (o : Option String) (rest : List (Char × Option String))
        (ex : Bool) (pre : List (Char × Option String)),
        (∀ p ∈ pre, p.1 ≠ '?' ∧ p.1 ≠ 'h') →
        parse_opts_loop args (pre ++ ('h', o) :: rest) ex = OptsResult.usage true) ∧
    (∀ (σ α κ : Type) (E : Env σ α κ) (fuel : Nat) (argv : List String) (b : Bool),
        parse_opts ⟨-1, -1, none, none⟩ argv = OptsResult.usage b →
        wesgr_main E fuel argv = some (1, [])) := by
  constructor
  · intro args o rest ex pre
    induction pre generalizing args with
    | nil =>
      intro _
      simp [parse_opts_loop]
    | cons q pre' ih =>
      intro hno
      rcases q with ⟨c, oa⟩
      have hc := hno (c, oa) (List.mem_cons_self _ _)
      have hno' : ∀ p ∈ pre', p.1 ≠ '?' ∧ p.1 ≠ 'h' :=
        fun p hp => hno p (List.mem_cons_of_mem _ hp)
      simp only [List.cons_append, parse_opts_loop]
      rw [if_neg hc.1, if_neg hc.2]
      by_cases h3 : c = 'i'
      · rw [if_pos h3]; exact ih _ hno'
      · rw [if_neg h3]
        by_cases h4 : c = 'a'
        · rw [if_pos h4]; exact ih _ hno'
        · rw [if_neg h4]
          by_cases h5 : c = 'b'
          · rw [if_pos h5]; exact ih _ hno'
          · rw [if_neg h5]
            by_cases h6 : c = 'o'
            · rw [if_pos h6]; exact ih _ hno'
            · rw [if_neg h6]; exact ih _ hno'
  · intro σ α κ E fuel argv b h
    unfold wesgr_main
    rw [h]

/-- Claim C9 (witness): "-h" alone yields the usage-printing -1 return,
and main exits with status 1 and an empty trace. -/
theorem c9_witness :
    parse_opts_loop ⟨-1, -1, none, none⟩ [('h', none)] false = OptsResult.usage true ∧
    wesgr_main (envWith []) 10 ["-h"] = some (1, []) :=
  ⟨c9_help_usage_and_exit_one.1 ⟨-1, -1, none, none⟩ none [] false [] (by decide),
   c9_help_usage_and_exit_one.2 BDState Nat Nat (envWith []) 10 ["-h"] true (by decide)⟩

/-- Claim C10: an explicit -a (--from-ms) or -b (--to-ms) with argument
"-1" is indistinguishable from omitting that option: getopt_long hands
parse_opts the pair ('a', "-1") or ('b', "-1") — the next argv element
is consumed as the option argument even though it begins with a dash —
the loop stores atoi "-1" = -1, which is the initialisation value of
the corresponding field, so the whole program behaves identically with
and without the option. -/
theorem c10_explicit_minus_one_equals_unset :
    (∀ (t : Int) (i o : Option String) (post : List (Char × Option String))
        (ex : Bool) (pre : List (Char × Option String)),
        (∀ p ∈ pre, p.1 ≠ 'a') →
        parse_opts_loop ⟨-1, t, i, o⟩ (pre ++ ('a', some "-1") :: post) ex
          = parse_opts_loop ⟨-1, t, i, o⟩ (pre ++ post) ex) ∧
    (∀ (f : Int) (i o : Option String) (post : List (Char × Option String))
        (ex : Bool) (pre : List (Char × Option String)),
        (∀ p ∈ pre, p.1 ≠ 'b') →
        parse_opts_loop ⟨f, -1, i, o⟩ (pre ++ ('b', some "-1") :: post) ex
          = parse_opts_loop ⟨f, -1, i, o⟩ (pre ++ post) ex) ∧
    (∀ rest : List String,
        getopt_long ("-a" :: "-1" :: rest)
          = (('a', some "-1") :: (getopt_long rest).1, (getopt_long rest).2)) ∧
    (∀ rest : List String,
        getopt_long ("-b" :: "-1" :: rest)
          = (('b', some "-1") :: (getopt_long rest).1, (getopt_long rest).2)) ∧
    (∀ (σ α κ : Type) (E : Env σ α κ) (fuel : Nat) (X Y : String),
        wesgr_main E fuel ["-i", X, "-o", Y, "-a", "-1"]
          = wesgr_main E fuel ["-i", X, "-o", Y]) ∧
    (∀ (σ α κ : Type) (E : Env σ α κ) (fuel : Nat) (X Y : String),
        wesgr_main E fuel ["-i", X, "-o", Y, "-b", "-1"]
          = wesgr_main E fuel ["-i", X, "-o", Y]) := by
  refine ⟨?_, ?_, ?_, ?_, ?_, ?_⟩
  · intro t i o post ex pre
    induction pre generalizing t i o with
    | nil =>
      intro _
      have ha : atoi "-1" = -1 := by decide
      simp [parse_opts_loop, ha]
    | cons q pre' ih =>
      intro hno
      rcases q with ⟨c, oa⟩
      have hc := hno (c, oa) (List.mem_cons_self _ _)
      have hno' : ∀ p ∈ pre', p.1 ≠ 'a' :=
        fun p hp => hno p (List.mem_cons_of_mem _ hp)
      simp only [List.cons_append, parse_opts_loop]
      by_cases h1 : c = '?'
      · simp only [if_pos h1]
      · simp only [if_neg h1]
        by_cases h2 : c = 'h'
        · simp only [if_pos h2]
        · simp only [if_neg h2]
          by_cases h3 : c = 'i'
          · simp only [if_pos h3]; exact ih t oa o hno'
          · simp only [if_neg h3, if_neg hc]
            by_cases h5 : c = 'b'
            · simp only [if_pos h5]; exact ih (atoi (oa.getD "")) i o hno'
            · simp only [if_neg h5]
              by_cases h6 : c = 'o'
              · simp only [if_pos h6]; exact ih t i oa hno'
              · simp only [if_neg h6]; exact ih t i o hno'
  · intro f i o post ex pre
    induction pre generalizing f i o with
    | nil =>
      intro _
      have ha : atoi "-1" = -1 := by decide
      simp [parse_opts_loop, ha]
    | cons q pre' ih =>
      intro hno
      rcases q with ⟨c, oa⟩
      have hc := hno (c, oa) (List.mem_cons_self _ _)
      have hno' : ∀ p ∈ pre', p.1 ≠ 'b' :=
        fun p hp => hno p (List.mem_cons_of_mem _ hp)
      simp only [List.cons_append, parse_opts_loop]
      by_cases h1 : c = '?'
      · simp only [if_pos h1]
      · simp only [if_neg h1]
        by_cases h2 : c = 'h'
        · simp only [if_pos h2]
        · simp only [if_neg h2]
          by_cases h3 : c = 'i'
          · simp only [if_pos h3]; exact ih f oa o hno'
          · simp only [if_neg h3]
            by_cases h4 : c = 'a'
            · simp only [if_pos h4]; exact ih (atoi (oa.getD "")) i o hno'
            · simp only [if_neg h4, if_neg hc]
              by_cases h6 : c = 'o'
              · simp only [if_pos h6]; exact ih f i oa hno'
              · simp only [if_neg h6]; exact ih f i o hno'
  · intro rest
    rfl
  · intro rest
    rfl
  · intro σ α κ E fuel X Y
    have hp : parse_opts ⟨-1, -1, none, none⟩ ["-i", X, "-o", Y, "-a", "-1"]
        = parse_opts ⟨-1, -1, none, none⟩ ["-i", X, "-o", Y] := rfl
    unfold wesgr_main
    rw [hp]
  · intro σ α κ E fuel X Y
    have hp : parse_opts ⟨-1, -1, none, none⟩ ["-i", X, "-o", Y, "-b", "-1"]
        = parse_opts ⟨-1, -1, none, none⟩ ["-i", X, "-o", Y] := rfl
    unfold wesgr_main
    rw [hp]

/-- Claim C10 (witness): dropping ('a', "-1") — and likewise
('b', "-1") — from a concrete result stream leaves the parse_opts
loop's outcome unchanged. -/
theorem c10_witness :
    (parse_opts_loop ⟨-1, -1, none, none⟩
        [('i', some "in"), ('a', some "-1"), ('o', some "out")] false
      = parse_opts_loop ⟨-1, -1, none, none⟩
        [('i', some "in"), ('o', some "out")] false) ∧
    (parse_opts_loop ⟨-1, -1, none, none⟩
        [('i', some "in"), ('b', some "-1"), ('o', some "out")] false
      = parse_opts_loop ⟨-1, -1, none, none⟩
        [('i', some "in"), ('o', some "out")] false) := by
  constructor
  · have h := c10_explicit_minus_one_equals_unset.1 (-1) none none
      [('o', some "out")] false [('i', some "in")] (by decide)
    simpa using h
  · have h := c10_explicit_minus_one_equals_unset.2.1 (-1) none none
      [('o', some "out")] false [('i', some "in")] (by decide)
    simpa using h
